import Mathlib

/-!
Shallow embedding of the Telegram auto-reply assistant (NestJS/TypeScript)
for checking its natural-language specification.

Sources embedded:
- `src/queue/message.processor.ts` — `postProcessText`, `splitIntoMessages`,
  `handleMessage` (the response-generation pipeline);
- `src/utils/typo-generator.ts` — `introduceTypo` and its mutation helpers;
- `src/conversation/conversation.service.ts` — `findOrCreateUser`,
  `markPendingMessagesAsProcessed`, `isConversationIgnored`,
  `summarizeConversation`;
- `src/rate-limit/rate-limit.service.ts` — `checkLimit`, `incrementCounter`,
  `markWarningSent`, and the admission logic of
  `src/telegram/telegram.service.ts` (`setupHandlers`).

JavaScript strings are modelled as Lean `String`/`List Char` (all characters
involved are in the Basic Multilingual Plane, where JS code-unit length and
character count agree).  Each call to `Math.random()` is modelled by an
oracle parameter: a ranged draw `Math.floor(Math.random() * k)` becomes
`r % k` for an arbitrary `r : Nat`, which ranges over exactly the outcomes
the source can produce.
-/

/-- The whitespace characters stripped by `String.prototype.trim` that can
occur in this code base's strings. -/
def isJsWhitespace (c : Char) : Bool :=
  c = ' ' ∨ c = '\t' ∨ c = '\n' ∨ c = '\r'

/-- Model of `cs.trim()`: `trimChars cs` is the list: whitespace removed from both ends. -/
def trimChars (cs : List Char) : List Char :=
  ((cs.dropWhile isJsWhitespace).reverse.dropWhile isJsWhitespace).reverse

/-- String-level trim: `jsTrim s` is `s.trim()`. -/
def jsTrim (s : String) : String :=
  String.mk (trimChars s.toList)

/-- Sentence-ending punctuation, the `[.!?]` class of
`splitIntoMessages`' regex. -/
def isSentencePunct (c : Char) : Bool :=
  c = '.' ∨ c = '!' ∨ c = '?'

/-- Models `text.split(/([.!?])/)`: the pieces between sentence-ending
punctuation marks interleaved with the (captured) one-character marks
themselves; leading/trailing/empty pieces are kept, as in JavaScript. -/
def splitKeepPunct : List Char → List (List Char)
  | [] => [[]]
  | c :: rest =>
    if isSentencePunct c then
      [] :: [c] :: splitKeepPunct rest
    else
      match splitKeepPunct rest with
      | seg :: out => (c :: seg) :: out
      | [] => [[c]]

/-- Models `text.split(' ')`: pieces between single spaces, empties kept. -/
def splitOnSpaceChars : List Char → List (List Char)
  | [] => [[]]
  | c :: rest =>
    if c = ' ' then
      [] :: splitOnSpaceChars rest
    else
      match splitOnSpaceChars rest with
      | seg :: out => (c :: seg) :: out
      | [] => [[c]]

/-- String-level `text.split(' ')`. -/
def splitOnSpace (s : String) : List String :=
  (splitOnSpaceChars s.toList).map String.mk

/-- The accumulation loop of `MessageProcessor.splitIntoMessages`.
`flush i` models the draw `Math.random() < 0.6` made when part `i` is a
punctuation mark; `total` is `parts.length`.  Mirrors the source loop:
empty (after trim) parts are skipped; a punctuation part is appended to the
current message and either flushed (on a favourable draw, or forcibly at the
final boundary `i >= parts.length - 2`) or continued with a space; a text
part is appended. -/
def splitLoop (flush : Nat → Bool) (total : Nat) :
    Nat → List (List Char) → List Char → List (List Char) → List (List Char)
  | _, [], current, msgs =>
    if (trimChars current).isEmpty then msgs else msgs ++ [trimChars current]
  | i, p :: rest, current, msgs =>
    let part := trimChars p
    if part.isEmpty then
      splitLoop flush total (i + 1) rest current msgs
    else if part = ['.'] ∨ part = ['!'] ∨ part = ['?'] then
      let current1 := current ++ part
      if flush i ∨ (i : Int) ≥ (total : Int) - 2 then
        if (trimChars current1).isEmpty then
          splitLoop flush total (i + 1) rest current1 msgs
        else
          splitLoop flush total (i + 1) rest [] (msgs ++ [trimChars current1])
      else
        splitLoop flush total (i + 1) rest (current1 ++ [' ']) msgs
    else
      splitLoop flush total (i + 1) rest (current ++ part) msgs

/-- Embeds `MessageProcessor.splitIntoMessages`: split the generated text into
human-feeling message chunks at sentence boundaries.  When no chunk was
produced the original text is returned as the single chunk. -/
def splitIntoMessages (flush : Nat → Bool) (text : String) : List String :=
  let parts := splitKeepPunct text.toList
  let msgs := splitLoop flush parts.length 0 parts [] []
  if msgs.isEmpty then [text] else msgs.map String.mk

/-- Embeds `MessageProcessor.postProcessText`: strip a single trailing period (but
not `..`), drop commas on favourable draws (`dropComma j` models
`Math.random() < 0.25` at character position `j`), then trim. -/
def postProcessText (dropComma : Nat → Bool) (text : String) : String :=
  let processed :=
    if text.endsWith "." ∧ ¬ text.endsWith ".." then text.dropRight 1 else text
  let cs := processed.toList
  let cs2 :=
    if cs.contains ',' then
      cs.enum.filterMap fun ic =>
        if ic.2 = ',' ∧ dropComma ic.1 then none else some ic.2
    else cs
  String.mk (trimChars cs2)

/-!
## Typo generator (`src/utils/typo-generator.ts`)
-/

/-- Result of `introduceTypo` (interface `TypoResult`).  `originalText`
is `none` when the source leaves the field absent. -/
structure TypoResult where
  text : String
  hasTypo : Bool
  originalText : Option String
  deriving DecidableEq

/-- ASCII and Russian lowercasing as performed by
`String.prototype.toLowerCase` on the characters this code base handles. -/
def jsToLowerChar (c : Char) : Char :=
  if ('A' ≤ c ∧ c ≤ 'Z') ∨ ('А' ≤ c ∧ c ≤ 'Я') then Char.ofNat (c.toNat + 32)
  else if c = 'Ё' then 'ё'
  else c

/-- ASCII and Russian uppercasing (`String.prototype.toUpperCase`). -/
def jsToUpperChar (c : Char) : Char :=
  if ('a' ≤ c ∧ c ≤ 'z') ∨ ('а' ≤ c ∧ c ≤ 'я') then Char.ofNat (c.toNat - 32)
  else if c = 'ё' then 'Ё'
  else c

/-- The constant `KEYBOARD_LAYOUT`: adjacent keys per lowercase letter,
Russian layout first, then English; unknown letters have no neighbours
(`undefined` lookup in the source). -/
def keyboardLayout (c : Char) : List Char :=
  match c with
  | 'а' => ['ф', 'ы', 'в', 'с']
  | 'б' => ['н', 'г', 'ю', 'т']
  | 'в' => ['а', 'п', 'м', 'с', 'ы']
  | 'г' => ['п', 'р', 'ш', 'т', 'б']
  | 'д' => ['в', 'а', 'о', 'л', 'ж']
  | 'е' => ['н', 'г', 'п', 'р']
  | 'ж' => ['д', 'л', 'ю', 'э']
  | 'з' => ['я', 'ч', 'щ', 'х']
  | 'и' => ['т', 'ш', 'щ', 'м', 'б']
  | 'й' => ['ц', 'у', 'к', 'е']
  | 'к' => ['у', 'е', 'н', 'г', 'ш']
  | 'л' => ['о', 'д', 'ж', 'э']
  | 'м' => ['и', 'т', 'ь', 'б', 'в']
  | 'н' => ['г', 'к', 'е', 'р']
  | 'о' => ['л', 'д', 'в', 'а', 'р']
  | 'п' => ['е', 'р', 'о', 'т', 'и', 'в']
  | 'р' => ['о', 'л', 'д', 'г', 'н', 'е']
  | 'с' => ['ы', 'в', 'а', 'м']
  | 'т' => ['и', 'п', 'р', 'г', 'б', 'н']
  | 'у' => ['й', 'к', 'ц']
  | 'ф' => ['а', 'я']
  | 'х' => ['з', 'ъ']
  | 'ц' => ['й', 'у', 'ч']
  | 'ч' => ['ц', 'з', 'я', 'с']
  | 'ш' => ['к', 'г', 'щ', 'и']
  | 'щ' => ['з', 'х', 'ъ', 'ш']
  | 'ъ' => ['х', 'ъ', 'э']
  | 'ы' => ['а', 'в', 'с']
  | 'ь' => ['б', 'м', 'т']
  | 'э' => ['ж', 'ъ', 'л']
  | 'ю' => ['б', 'ж']
  | 'я' => ['ф', 'ч', 'з']
  | 'q' => ['w', 'a']
  | 'w' => ['q', 'e', 's', 'a']
  | 'e' => ['w', 'r', 'd', 's']
  | 'r' => ['e', 't', 'f', 'd']
  | 't' => ['r', 'y', 'g', 'f']
  | 'y' => ['t', 'u', 'h', 'g']
  | 'u' => ['y', 'i', 'j', 'h']
  | 'i' => ['u', 'o', 'k', 'j']
  | 'o' => ['i', 'p', 'l', 'k']
  | 'p' => ['o', 'l']
  | 'a' => ['q', 'w', 's', 'z']
  | 's' => ['w', 'e', 'd', 'a', 'z', 'x']
  | 'd' => ['e', 'r', 'f', 's', 'x', 'c']
  | 'f' => ['r', 't', 'g', 'd', 'c', 'v']
  | 'g' => ['t', 'y', 'h', 'f', 'v', 'b']
  | 'h' => ['y', 'u', 'j', 'g', 'b', 'n']
  | 'j' => ['u', 'i', 'k', 'h', 'n', 'm']
  | 'k' => ['i', 'o', 'l', 'j', 'm']
  | 'l' => ['o', 'p', 'k']
  | 'z' => ['a', 's', 'x']
  | 'x' => ['z', 's', 'd', 'c']
  | 'c' => ['x', 'd', 'f', 'v']
  | 'v' => ['c', 'f', 'g', 'b']
  | 'b' => ['v', 'g', 'h', 'n']
  | 'n' => ['b', 'h', 'j', 'm']
  | 'm' => ['n', 'j', 'k']
  | _ => []

/-- Embeds `skipLetter`: drop one letter of a word, never the first or last one;
`r` is the oracle for `Math.floor(Math.random() * (word.length - 2))`. -/
def skipLetter (r : Nat) (word : List Char) : List Char :=
  if word.length ≤ 3 then word
  else
    let index := r % (word.length - 2) + 1
    word.take index ++ word.drop (index + 1)

/-- Embeds `replaceWithNeighbor`: replace one inner letter with an adjacent key,
keeping its case; `r1` picks the letter, `r2` the neighbour. -/
def replaceWithNeighbor (r1 r2 : Nat) (word : List Char) : List Char :=
  if word.length ≤ 2 then word
  else
    let index := r1 % (word.length - 2) + 1
    let letter := jsToLowerChar (word.getD index ' ')
    let neighbors := keyboardLayout letter
    if neighbors.isEmpty then word
    else
      let neighbor := neighbors.getD (r2 % neighbors.length) ' '
      let replacement :=
        if word.getD index ' ' = jsToUpperChar (word.getD index ' ') then
          jsToUpperChar neighbor
        else neighbor
      word.take index ++ [replacement] ++ word.drop (index + 1)

/-- Embeds `addExtraSpace`: insert a second space after word `r % (n-1)`. -/
def addExtraSpace (r : Nat) (text : String) : String :=
  let words := splitOnSpace text
  if words.length ≤ 1 then text
  else
    let index := r % (words.length - 1)
    String.intercalate " " (words.take (index + 1)) ++ "  " ++
      String.intercalate " " (words.drop (index + 1))

/-- One run's worth of random draws for `introduceTypo`.  `skip` models
`Math.random() > probability` (no typo attempted), `typoType` the choice
among `Object.values(TypoType) = [skip_letter, neighbor_key, extra_space]`,
and the `Nat` fields the ranged draws inside the chosen branch. -/
structure TypoRand where
  skip : Bool
  typoType : Fin 3
  wordIdx : Nat
  letterIdx : Nat
  neighborIdx : Nat
  spaceIdx : Nat

/-- The `switch (typoType)` block of `introduceTypo`: the candidate text
with a typo.  The source's early `return {text, hasTypo: false}` when
`words.length === 0` is encoded by leaving the text unchanged, which
produces the identical result through the final unchanged-text check (and
is unreachable anyway, `split` never returning an empty array).  The
`try/catch` is dropped: the embedding is total, so the catch branch is
unreachable. -/
def typoMutate (rnd : TypoRand) (text : String) : String :=
  match rnd.typoType with
  | ⟨0, _⟩ =>
    let words := splitOnSpace text
    if words.length = 0 then text
    else
      let wordIndex := rnd.wordIdx % words.length
      let word := words.getD wordIndex ""
      let newWord := String.mk (skipLetter rnd.letterIdx word.toList)
      if newWord ≠ word then
        String.intercalate " " (words.set wordIndex newWord)
      else text
  | ⟨1, _⟩ =>
    let words := splitOnSpace text
    if words.length = 0 then text
    else
      let wordIndex := rnd.wordIdx % words.length
      let word := words.getD wordIndex ""
      let newWord :=
        String.mk (replaceWithNeighbor rnd.letterIdx rnd.neighborIdx word.toList)
      if newWord ≠ word then
        String.intercalate " " (words.set wordIndex newWord)
      else text
  | ⟨_ + 2, _⟩ =>
    let newText := addExtraSpace rnd.spaceIdx text
    if newText ≠ text then newText else text

/-- Embeds `introduceTypo`: attempt one keyboard-plausible mutation of `text`;
a declined draw, a short text or a mutation that changed nothing reports
no typo and returns the text unaltered. -/
def introduceTypo (rnd : TypoRand) (text : String) : TypoResult :=
  if rnd.skip then ⟨text, false, none⟩
  else if text.length < 5 then ⟨text, false, none⟩
  else
    let textWithTypo := typoMutate rnd text
    if textWithTypo = text then ⟨text, false, none⟩
    else ⟨textWithTypo, true, some text⟩

/-!
## Persistence model (`src/conversation/conversation.service.ts`)
-/

/-- A `PendingMessage` row: the fields the claims depend on.  The scheduled
timestamp, Telegram ids and image payloads are carried by the source row but
never read by the embedded operations. -/
structure PendingMsg where
  id : Nat
  content : String
  processed : Bool
  deriving DecidableEq

/-- Embeds `getPendingMessages`: the unprocessed rows of one party, in creation
order (the list order). -/
def getPendingMessages (pending : List PendingMsg) : List PendingMsg :=
  pending.filter fun m => m.processed = false

/-- Embeds `markPendingMessagesAsProcessed`: an `updateMany` setting `processed` for
every row whose id is in `ids`; rows not named are untouched, absent ids
match nothing. -/
def markPendingMessagesAsProcessed (ids : List Nat) (pending : List PendingMsg) :
    List PendingMsg :=
  pending.map fun m => if m.id ∈ ids then { m with processed := true } else m

/-- A stored `Message` row (a conversation turn): role and text. The
Telegram message id and image payload of the source row are never read by
the embedded operations. -/
structure Turn where
  role : String
  content : String
  deriving DecidableEq

/-- The mutable part of one `Conversation` row that `summarizeConversation`
and the pipeline touch: the rolling summary and the stored turns in
creation order. -/
structure ConvState where
  summary : Option String
  messages : List Turn
  deriving DecidableEq

/-- Embeds `saveMessage`: append one turn (the row's `lastMessageAt` touch has no
observable effect on the embedded state). -/
def saveTurn (role content : String) (c : ConvState) : ConvState :=
  { c with messages := c.messages ++ [⟨role, content⟩] }

/-- The first operation of the compaction transaction:
`conversation.update({data: {summary}})`. -/
def updateSummary (s : String) (c : ConvState) : ConvState :=
  { c with summary := some s }

/-- The second operation of the compaction transaction:
`message.deleteMany` of the first `k` turns (the summarized ones, which are
the oldest `k` by construction). -/
def deleteFirstTurns (k : Nat) (c : ConvState) : ConvState :=
  { c with messages := c.messages.drop k }

/-- Prisma `$transaction [op₁, op₂]`: all operations commit atomically;
`failAfter = some k` models a failure once `k` of them have run — the
transaction rolls back and no partial write is observable. -/
def runTx (ops : List (ConvState → ConvState)) (failAfter : Option Nat)
    (c : ConvState) : ConvState × Bool :=
  match failAfter with
  | none => (ops.foldl (fun s f => f s) c, true)
  | some _ => (c, false)

/-- Embeds `summarizeConversation`: below the threshold nothing happens; otherwise
every turn except the most recent `limitN` is summarized (`summarize`
models `openaiService.summarizeMessages`, `none` being a thrown error, which
happens before any write), then summary replacement and turn deletion run
in one `$transaction`.  The `Bool` is false when the call threw. -/
def summarizeConversation (threshold limitN : Nat)
    (summarize : List Turn → Option String) (txFail : Option Nat)
    (c : ConvState) : ConvState × Bool :=
  if c.messages.length < threshold then (c, true)
  else if (c.messages.take (c.messages.length - limitN)).length = 0 then (c, true)
  else
    match summarize (c.messages.take (c.messages.length - limitN)) with
    | none => (c, false)
    | some s =>
      runTx [updateSummary s, deleteFirstTurns (c.messages.length - limitN)]
        txFail c

/-- A `User` row (`RemoteParty`). -/
structure TgUser where
  telegramId : Int
  username : Option String
  firstName : Option String
  lastName : Option String
  deriving DecidableEq

/-- Embeds `findOrCreateUser`: a `findUnique` by Telegram id, creating the row with
the observed values when absent.  Returns the row handed to the caller and
the updated store. -/
def findOrCreateUser (telegramId : Int)
    (username firstName lastName : Option String) (users : List TgUser) :
    TgUser × List TgUser :=
  match users.find? (fun u => u.telegramId = telegramId) with
  | some u => (u, users)
  | none =>
    let u : TgUser := ⟨telegramId, username, firstName, lastName⟩
    (u, users ++ [u])

/-- A `Conversation` row as read by `isConversationIgnored`. -/
structure ConversationRow where
  userId : Nat
  isIgnored : Bool
  lastMessageAt : Nat
  deriving DecidableEq

/-- Embeds the `findFirst` query ordered by `lastMessageAt` descending: the
most recently active conversation of the party, if any. -/
def latestConversation (userId : Nat) (convs : List ConversationRow) :
    Option ConversationRow :=
  (convs.filter fun c => c.userId = userId).foldl
    (fun acc c =>
      match acc with
      | none => some c
      | some b => if c.lastMessageAt > b.lastMessageAt then some c else some b)
    none

/-- Embeds `isConversationIgnored`: the latest conversation row's ignored
flag, defaulting to false when the party has no row yet. -/
def isConversationIgnored (userId : Nat) (convs : List ConversationRow) : Bool :=
  match latestConversation userId convs with
  | some c => c.isIgnored
  | none => false

/-!
## Rate governor (`src/rate-limit/rate-limit.service.ts` and the admission
logic of `TelegramService.setupHandlers`)
-/

/-- The Redis hash behind one party's rate key, within one TTL window.  A
missing key reads as count 0 / no warning (`hgetall` of a missing key is
empty and the source parses `data.count || '0'`). -/
structure RateWindow where
  count : Nat
  warningSent : Bool
  deriving DecidableEq

/-- The result shape of `checkLimit` (interface `RateLimitStatus`). -/
structure RateLimitStatus where
  exceeded : Bool
  warningSent : Bool
  currentCount : Nat
  limit : Nat
  deriving DecidableEq

/-- Embeds `RateLimitService.checkLimit`: read-only; `exceeded` iff the stored
count has reached the hourly limit. -/
def checkLimit (limit : Nat) (w : RateWindow) : RateLimitStatus :=
  ⟨w.count ≥ limit, w.warningSent, w.count, limit⟩

/-- Embeds `RateLimitService.incrementCounter` (an `hincrby` by one; the TTL start on
the first increment has no effect within one window). -/
def incrementCounter (w : RateWindow) : RateWindow :=
  { w with count := w.count + 1 }

/-- Embeds `RateLimitService.markWarningSent`: the warning flag is set. -/
def markWarningSent (w : RateWindow) : RateWindow :=
  { w with warningSent := true }

/-- What the inbound handler decides for one message: whether it is
processed further, and whether the one-time busy warning is sent now. -/
structure GateOutcome where
  admitted : Bool
  warned : Bool
  deriving DecidableEq

/-- The rate-limit gate of `TelegramService.setupHandlers` (lines 163-192):
an exceeded window suppresses the message, warning only if the warning flag
is still clear; an admitted message increments the counter. -/
def gateIncoming (limit : Nat) (w : RateWindow) : GateOutcome × RateWindow :=
  let status := checkLimit limit w
  if status.exceeded then
    if ¬ status.warningSent then (⟨false, true⟩, markWarningSent w)
    else (⟨false, false⟩, w)
  else (⟨true, false⟩, incrementCounter w)

/-- Window state after `n` messages of one party arrived in a fresh window. -/
def gateState (limit : Nat) : Nat → RateWindow
  | 0 => ⟨0, false⟩
  | n + 1 => (gateIncoming limit (gateState limit n)).2

/-- The gate's decision on the `(n+1)`-th message of the window
(0-indexed: `gateOutcome limit n` is message number `n + 1`). -/
def gateOutcome (limit n : Nat) : GateOutcome :=
  (gateIncoming limit (gateState limit n)).1

/-!
## Response-generation pipeline (`MessageProcessor.handleMessage`)

One run of the `process-message` job is modelled as a function of the
database state and an environment bundling every source of
nondeterminism: the random oracles of text post-processing, splitting and
typo injection; the Completion Service's output; transport failures; and —
central to the reconciliation claims — the out-of-band
`markPendingMessagesAsProcessed` calls the owner's manual replies can issue
while the job is suspended.  The job's suspension points group into three
windows for such external marks: during the typing wait (between the first
and the second pending read), between the second pending read and the
`generateResponse` call (the `getUserById` and `setTyping` awaits), and
during generation (between `generateResponse` returning and the first chunk
send).  A mark in a later window additionally covers every earlier one by
choosing the earlier sets empty.

Reads with no effect on the modelled state (context assembly, user facts,
the typing wait itself, read receipts and typing indicators) are elided;
`extractAndSaveFacts` catches its own errors and touches only the fact
store, which no claim observes, so it is elided as well.
-/

/-- Everything one run consumes besides the database state. -/
structure RunEnv where
  markDuringWait : List Nat
  markBeforeGenerate : List Nat
  markBeforeDeliver : List Nat
  genText : String
  dropComma : Nat → Bool
  flush : Nat → Bool
  typoRand : Nat → TypoRand
  sendFail : Nat → Bool
  editFail : Nat → Bool
  summarize : List Turn → Option String
  txFail : Option Nat

/-- The per-party database slice one run touches. -/
structure Db where
  pending : List PendingMsg
  conv : ConvState
  isIgnored : Bool

/-- Which return (or throw) ended the run, mirroring the source's
`{success, ignored}`, `{success}` with no pending, `{success, cancelled}`,
plain `{success}`, and a thrown error. -/
inductive RunTag where
  | ignoredDrain
  | noPending
  | cancelled
  | ok
  | deliveryFailed
  deriving DecidableEq

/-- Observable outcome of one run: final database slice, the texts passed
to `sendMessage` in order, the typo-fix texts passed to `editMessage`, the
reactions sent (this processor sends none), whether the job threw, and
which exit was taken. -/
structure RunOutcome where
  pending : List PendingMsg
  conv : ConvState
  sent : List String
  edited : List String
  reactions : List String
  failed : Bool
  tag : RunTag

/-- The delivery loop (step 10 of `handleMessage`): for chunk `i`, either
send it verbatim or — when `introduceTypo` reports a typo with a truthy
`originalText` — send the typo text and then edit it to the original.  A
failing send (`sendFail i`) or edit (`editFail i`) throws, aborting the
remaining chunks; the result records the texts sent, the edits made, and
`some i` when chunk `i` threw.  Typing indicators and sleeps have no
observable effect. -/
def deliverChunks (env : RunEnv) : Nat → List String → List String × List String × Option Nat
  | _, [] => ([], [], none)
  | i, msg :: rest =>
    let tr := introduceTypo (env.typoRand i) msg
    if tr.hasTypo ∧ tr.originalText.getD "" ≠ "" then
      if env.sendFail i then ([], [], some i)
      else if env.editFail i then ([tr.text], [], some i)
      else
        let r := deliverChunks env (i + 1) rest
        (tr.text :: r.1, tr.originalText.getD "" :: r.2.1, r.2.2)
    else
      if env.sendFail i then ([], [], some i)
      else
        let r := deliverChunks env (i + 1) rest
        (msg :: r.1, r.2.1, r.2.2)

/-- Step 1's batch: the unprocessed pending rows at the first read. -/
def batchOf (db : Db) : List PendingMsg :=
  getPendingMessages db.pending

/-- The pending store after the external marks of the typing-wait window. -/
def pendingAfterWait (env : RunEnv) (db : Db) : List PendingMsg :=
  markPendingMessagesAsProcessed env.markDuringWait db.pending

/-- Step 4.5's reconciliation: the initial batch ids still present in the
second unprocessed read (`stillPendingIds`). -/
def survivorsAfterWait (env : RunEnv) (db : Db) : List Nat :=
  ((batchOf db).map (·.id)).filter fun i =>
    ((getPendingMessages (pendingAfterWait env db)).find? fun m => m.id = i).isSome

/-- The pending store at the moment delivery would begin, after every
external-mark window. -/
def pendingAtDelivery (env : RunEnv) (db : Db) : List PendingMsg :=
  markPendingMessagesAsProcessed env.markBeforeDeliver
    (markPendingMessagesAsProcessed env.markBeforeGenerate (pendingAfterWait env db))

/-- The initial batch ids still unprocessed at the moment delivery would
begin. -/
def survivorsAtDelivery (env : RunEnv) (db : Db) : List Nat :=
  ((batchOf db).map (·.id)).filter fun i =>
    ((getPendingMessages (pendingAtDelivery env db)).find? fun m => m.id = i).isSome

/-- Step 3: every batched inbound message appended to the conversation as a
`user` turn, in batch order. -/
def convAfterUserTurns (db : Db) : ConvState :=
  (batchOf db).foldl (fun c m => saveTurn "user" m.content c) db.conv

/-- Steps 8-9: the chunks the run would deliver, from the Completion
Service's text. -/
def chunksOf (env : RunEnv) : List String :=
  splitIntoMessages env.flush (postProcessText env.dropComma env.genText)

/-- Embeds `MessageProcessor.handleMessage`, one `process-message` job:
ignored conversations are drained without reply; an empty buffer is a
no-op; otherwise the batch is appended as user turns, the job waits out the
typing indicator, re-reads the pending buffer and intersects it with the
batch, aborting when no id survived; then the reply is generated, split and
delivered chunk by chunk, and on full delivery the assistant turn
(`messages.join('\n')`) is persisted, the surviving ids are marked
processed and compaction is attempted.  A chunk failure throws: everything
after the delivery loop is skipped. -/
def handleMessage (threshold limitN : Nat) (env : RunEnv) (db : Db) : RunOutcome :=
  if db.isIgnored then
    { pending := markPendingMessagesAsProcessed ((batchOf db).map (·.id)) db.pending,
      conv := db.conv, sent := [], edited := [], reactions := [],
      failed := false, tag := .ignoredDrain }
  else if batchOf db = [] then
    { pending := db.pending, conv := db.conv, sent := [], edited := [],
      reactions := [], failed := false, tag := .noPending }
  else if survivorsAfterWait env db = [] then
    { pending := pendingAfterWait env db, conv := convAfterUserTurns db,
      sent := [], edited := [], reactions := [], failed := false,
      tag := .cancelled }
  else if (deliverChunks env 0 (chunksOf env)).2.2.isSome then
    { pending := pendingAtDelivery env db, conv := convAfterUserTurns db,
      sent := (deliverChunks env 0 (chunksOf env)).1,
      edited := (deliverChunks env 0 (chunksOf env)).2.1,
      reactions := [], failed := true, tag := .deliveryFailed }
  else
    { pending := markPendingMessagesAsProcessed (survivorsAfterWait env db)
        (pendingAtDelivery env db),
      conv := (summarizeConversation threshold limitN env.summarize env.txFail
        (saveTurn "assistant" (String.intercalate "\n" (chunksOf env))
          (convAfterUserTurns db))).1,
      sent := (deliverChunks env 0 (chunksOf env)).1,
      edited := (deliverChunks env 0 (chunksOf env)).2.1,
      reactions := [],
      failed := !(summarizeConversation threshold limitN env.summarize env.txFail
        (saveTurn "assistant" (String.intercalate "\n" (chunksOf env))
          (convAfterUserTurns db))).2,
      tag := .ok }

/-- The assistant-role turns of a conversation state. -/
def assistantTurns (c : ConvState) : List Turn :=
  c.messages.filter fun t => t.role = "assistant"

/-!
## Concrete states used by counterexamples and witnesses
-/

/-- A draw that declines to inject a typo. -/
def noTypo : TypoRand := ⟨true, 0, 0, 0, 0, 0⟩

/-- A benign run environment: no external cancellation, a one-sentence
reply, flush-happy splitting, no typos, no transport failures, compaction
idle. -/
def envBase : RunEnv :=
  { markDuringWait := [], markBeforeGenerate := [], markBeforeDeliver := [],
    genText := "Привет", dropComma := fun _ => false, flush := fun _ => true,
    typoRand := fun _ => noTypo, sendFail := fun _ => false,
    editFail := fun _ => false, summarize := fun _ => none, txFail := none }

/-- One unanswered pending message from a fresh, non-ignored conversation. -/
def db0 : Db := ⟨[⟨0, "привет", false⟩], ⟨none, []⟩, false⟩

/-- A two-chunk reply whose second chunk send fails. -/
def envC3 : RunEnv :=
  { envBase with genText := "Раз. Два", sendFail := fun i => i = 1 }

/-!
## Helper lemmas
-/

theorem mem_of_mem_trimChars {c : Char} {cs : List Char}
    (h : c ∈ trimChars cs) : c ∈ cs := by
  unfold trimChars at h
  rw [List.mem_reverse] at h
  have h1 := (List.dropWhile_sublist (l := (cs.dropWhile isJsWhitespace).reverse)
    (p := isJsWhitespace)).subset h
  rw [List.mem_reverse] at h1
  exact (List.dropWhile_sublist (l := cs) (p := isJsWhitespace)).subset h1

theorem splitKeepPunct_of_no_punct {cs : List Char}
    (h : ∀ c ∈ cs, isSentencePunct c = false) : splitKeepPunct cs = [cs] := by
  induction cs with
  | nil => rfl
  | cons c rest ih =>
    have hc : isSentencePunct c = false := h c (by simp)
    have hrest : splitKeepPunct rest = [rest] :=
      ih fun d hd => h d (by simp [hd])
    simp only [splitKeepPunct, hc, Bool.false_eq_true, if_false, hrest]

theorem assistantTurns_foldl_user (batch : List PendingMsg) (c : ConvState) :
    assistantTurns (batch.foldl (fun c m => saveTurn "user" m.content c) c) =
      assistantTurns c := by
  induction batch generalizing c with
  | nil => rfl
  | cons m rest ih =>
    rw [List.foldl_cons, ih]
    simp [assistantTurns, saveTurn, List.filter_append]

/-!
## Claims
-/

/-- C6: with a random source that always chooses to flush,
`splitIntoMessages` cuts `"Привет. Как дела? Все супер!"` into exactly the
three sentence chunks; and for any random source, a text without
sentence-ending punctuation comes out as a single chunk. -/
theorem splitIntoMessages_spec :
    splitIntoMessages (fun _ => true) "Привет. Как дела? Все супер!" =
      ["Привет.", "Как дела?", "Все супер!"] ∧
    ∀ (flush : Nat → Bool) (text : String),
      (∀ c ∈ text.toList, isSentencePunct c = false) →
      (splitIntoMessages flush text).length = 1 := by
  constructor
  · decide
  · intro flush text h
    have hne : ∀ p, isSentencePunct p = true → trimChars text.toList ≠ [p] := by
      intro p hp hcontra
      have hmem : p ∈ text.toList :=
        mem_of_mem_trimChars (hcontra ▸ List.mem_singleton_self p)
      rw [h p hmem] at hp
      exact Bool.false_ne_true hp
    have hdot := hne '.' (by decide)
    have hexc := hne '!' (by decide)
    have hque := hne '?' (by decide)
    simp only [String.toList] at hdot hexc hque h ⊢
    simp only [splitIntoMessages, splitKeepPunct_of_no_punct h, splitLoop,
      List.nil_append, String.toList]
    split_ifs <;> simp_all

/-- Witness for C6's universal part at a punctuation-free text. -/
theorem splitIntoMessages_spec_witness :
    (∀ c ∈ ("привет как дела" : String).toList, isSentencePunct c = false) ∧
    (splitIntoMessages (fun _ => false) "привет как дела").length = 1 :=
  ⟨by decide, splitIntoMessages_spec.2 (fun _ => false) "привет как дела" (by decide)⟩

/-- C7: whenever `introduceTypo` reports a typo, `originalText` is exactly
the input string and the returned text differs from it; a draw whose
mutation leaves the text unchanged is reported as no typo with the text
returned unaltered (and no `originalText`). -/
theorem introduceTypo_spec (rnd : TypoRand) (text : String) :
    ((introduceTypo rnd text).hasTypo = true →
      (introduceTypo rnd text).originalText = some text ∧
      (introduceTypo rnd text).text ≠ text) ∧
    ((introduceTypo rnd text).hasTypo = false →
      (introduceTypo rnd text).text = text ∧
      (introduceTypo rnd text).originalText = none) := by
  unfold introduceTypo
  split_ifs with h1 h2
  · simp
  · simp
  · by_cases h3 : typoMutate rnd text = text <;> simp [h3]

/-- Witness for C7: an extra-space draw on `"ab cd"` injects a typo whose
`originalText` is the input. -/
theorem introduceTypo_spec_witness :
    (introduceTypo ⟨false, 2, 0, 0, 0, 0⟩ "ab cd").hasTypo = true ∧
    (introduceTypo ⟨false, 2, 0, 0, 0, 0⟩ "ab cd").originalText = some "ab cd" ∧
    (introduceTypo ⟨false, 2, 0, 0, 0, 0⟩ "ab cd").text ≠ "ab cd" :=
  ⟨by decide,
   ((introduceTypo_spec ⟨false, 2, 0, 0, 0, 0⟩ "ab cd").1 (by decide)).1,
   ((introduceTypo_spec ⟨false, 2, 0, 0, 0, 0⟩ "ab cd").1 (by decide)).2⟩

/-- C8: `markPendingMessagesAsProcessed` is idempotent and partial: a second
call with overlapping ids is the single call on the union; only the named
rows change; ids already processed (and absent ids) are a no-op, not an
error. -/
theorem markPendingMessagesAsProcessed_spec (ids ids2 : List Nat)
    (st : List PendingMsg) :
    markPendingMessagesAsProcessed ids (markPendingMessagesAsProcessed ids st) =
      markPendingMessagesAsProcessed ids st ∧
    markPendingMessagesAsProcessed ids2 (markPendingMessagesAsProcessed ids st) =
      markPendingMessagesAsProcessed (ids ++ ids2) st ∧
    ((∀ m ∈ st, m.id ∈ ids → m.processed = true) →
      markPendingMessagesAsProcessed ids st = st) ∧
    (∀ m ∈ st, m.id ∉ ids → m ∈ markPendingMessagesAsProcessed ids st) := by
  have key : ∀ (js js2 : List Nat) (l : List PendingMsg),
      markPendingMessagesAsProcessed js2 (markPendingMessagesAsProcessed js l) =
        markPendingMessagesAsProcessed (js ++ js2) l := by
    intro js js2 l
    unfold markPendingMessagesAsProcessed
    rw [List.map_map]
    apply List.map_congr_left
    intro m _
    by_cases h1 : m.id ∈ js
    · by_cases h2 : m.id ∈ js2 <;>
        simp [Function.comp, h1, h2, List.mem_append]
    · by_cases h2 : m.id ∈ js2 <;>
        simp [Function.comp, h1, h2, List.mem_append]
  refine ⟨?_, key ids ids2 st, ?_, ?_⟩
  · rw [key ids ids st]
    unfold markPendingMessagesAsProcessed
    apply List.map_congr_left
    intro m _
    by_cases h1 : m.id ∈ ids <;> simp [h1, List.mem_append]
  · intro h
    unfold markPendingMessagesAsProcessed
    conv_rhs => rw [← List.map_id st]
    apply List.map_congr_left
    intro m hm
    by_cases h1 : m.id ∈ ids
    · have := h m hm h1
      simp [h1, ← this]
    · simp [h1]
  · intro m hm hnot
    have : (if m.id ∈ ids then { m with processed := true } else m) = m := by
      simp [hnot]
    unfold markPendingMessagesAsProcessed
    exact this ▸ List.mem_map_of_mem _ hm

/-- Witness for C8: already-processed and absent ids are a no-op, and an
unnamed row survives untouched. -/
theorem markPendingMessagesAsProcessed_spec_witness :
    markPendingMessagesAsProcessed [5, 9] [⟨5, "a", true⟩] = [⟨5, "a", true⟩] ∧
    (⟨7, "b", false⟩ : PendingMsg) ∈
      markPendingMessagesAsProcessed [5] [⟨5, "a", true⟩, ⟨7, "b", false⟩] :=
  ⟨(markPendingMessagesAsProcessed_spec [5, 9] [] [⟨5, "a", true⟩]).2.2.1
      (by decide),
   (markPendingMessagesAsProcessed_spec [5] [] [⟨5, "a", true⟩, ⟨7, "b", false⟩]).2.2.2
      ⟨7, "b", false⟩ (by decide) (by decide)⟩

/-- C9 counterexample: a party already on record is observed again with a
new handle and first name, yet `findOrCreateUser` hands back the stored
record and leaves the store unchanged — nothing is updated. -/
theorem findOrCreateUser_counterexample :
    (findOrCreateUser 1 (some "newhandle") (some "Новое") none
        [⟨1, some "oldhandle", some "Старое", none⟩]).1.firstName ≠ some "Новое" ∧
    (findOrCreateUser 1 (some "newhandle") (some "Новое") none
        [⟨1, some "oldhandle", some "Старое", none⟩]).2 =
      [⟨1, some "oldhandle", some "Старое", none⟩] := by
  exact ⟨by decide, by decide⟩

/-- C9 (amended): `findOrCreateUser` creates the record with the observed
handle and names on the first observation; on every later observation it
returns the stored record unchanged, performing no update. -/
theorem findOrCreateUser_spec (tid : Int)
    (username firstName lastName : Option String) (users : List TgUser) :
    (users.find? (fun u => u.telegramId = tid) = none →
      findOrCreateUser tid username firstName lastName users =
        (⟨tid, username, firstName, lastName⟩,
          users ++ [⟨tid, username, firstName, lastName⟩])) ∧
    (∀ u, users.find? (fun u => u.telegramId = tid) = some u →
      findOrCreateUser tid username firstName lastName users = (u, users)) := by
  constructor
  · intro h
    simp [findOrCreateUser, h]
  · intro u h
    simp [findOrCreateUser, h]

/-- Witness for C9: creation on first contact, and a later observation of
the same party returning the stored row. -/
theorem findOrCreateUser_spec_witness :
    findOrCreateUser 3 none (some "Имя") none [] =
      (⟨3, none, some "Имя", none⟩, [⟨3, none, some "Имя", none⟩]) ∧
    findOrCreateUser 3 none (some "Другое") none [⟨3, none, some "Имя", none⟩] =
      (⟨3, none, some "Имя", none⟩, [⟨3, none, some "Имя", none⟩]) :=
  ⟨(findOrCreateUser_spec 3 none (some "Имя") none []).1 (by decide),
   (findOrCreateUser_spec 3 none (some "Другое") none
      [⟨3, none, some "Имя", none⟩]).2 ⟨3, none, some "Имя", none⟩ (by decide)⟩

/-- C10: a party with no `Conversation` row yet is never treated as
ignored — `isConversationIgnored` answers `false` on first contact. -/
theorem isConversationIgnored_fresh (userId : Nat) (convs : List ConversationRow)
    (h : ∀ c ∈ convs, c.userId ≠ userId) :
    isConversationIgnored userId convs = false := by
  have hfilter : convs.filter (fun c => c.userId = userId) = [] := by
    rw [List.filter_eq_nil_iff]
    intro c hc
    simp [h c hc]
  simp [isConversationIgnored, latestConversation, hfilter]

/-- Witness for C10: a fresh party is not ignored even while some other
party's conversation is. -/
theorem isConversationIgnored_fresh_witness :
    isConversationIgnored 9 [⟨3, true, 0⟩] = false :=
  isConversationIgnored_fresh 9 [⟨3, true, 0⟩] (by decide)

/-- C5: compaction is atomic.  Whatever the summarizer returns and wherever
the transaction fails, `summarizeConversation` leaves the conversation
either exactly as it was (prior summary, all turns) or with both effects —
the new summary installed and exactly the summarized turns deleted —
never one without the other. -/
theorem summarizeConversation_atomic (threshold limitN : Nat)
    (summarize : List Turn → Option String) (txFail : Option Nat)
    (c : ConvState) :
    (summarizeConversation threshold limitN summarize txFail c).1 = c ∨
    ∃ s, summarize (c.messages.take (c.messages.length - limitN)) = some s ∧
      (summarizeConversation threshold limitN summarize txFail c).1 =
        ⟨some s, c.messages.drop (c.messages.length - limitN)⟩ := by
  unfold summarizeConversation
  split_ifs with h1 h2
  · exact Or.inl rfl
  · exact Or.inl rfl
  · cases hs : summarize (c.messages.take (c.messages.length - limitN)) with
    | none => simp [hs]
    | some s =>
      cases txFail with
      | none =>
        refine Or.inr ⟨s, rfl, ?_⟩
        simp [hs, runTx, updateSummary, deleteFirstTurns]
      | some k => simp [hs, runTx]

theorem gateIncoming_below {limit n : Nat} (h : n < limit) :
    gateIncoming limit ⟨n, false⟩ = (⟨true, false⟩, ⟨n + 1, false⟩) := by
  simp [gateIncoming, checkLimit, incrementCounter, Nat.not_le_of_lt h]

theorem gateIncoming_at (limit : Nat) :
    gateIncoming limit ⟨limit, false⟩ = (⟨false, true⟩, ⟨limit, true⟩) := by
  simp [gateIncoming, checkLimit, markWarningSent]

theorem gateIncoming_after (limit : Nat) :
    gateIncoming limit ⟨limit, true⟩ = (⟨false, false⟩, ⟨limit, true⟩) := by
  simp [gateIncoming, checkLimit]

/-- The closed-form window state behind C4: the counter grows until the
limit is reached, then the warning flag latches. -/
theorem gateState_eq (limit n : Nat) :
    gateState limit n = if n ≤ limit then ⟨n, false⟩ else ⟨limit, true⟩ := by
  induction n with
  | zero => simp [gateState]
  | succ n ih =>
    rw [gateState, ih]
    rcases Nat.lt_trichotomy n limit with h | h | h
    · rw [if_pos (Nat.le_of_lt h), gateIncoming_below h,
        if_pos (by omega : n + 1 ≤ limit)]
    · subst h
      rw [if_pos (Nat.le_refl n), gateIncoming_at,
        if_neg (by omega : ¬ n + 1 ≤ n)]
    · rw [if_neg (by omega : ¬ n ≤ limit), gateIncoming_after,
        if_neg (by omega : ¬ n + 1 ≤ limit)]

/-- C4: with hourly limit `L`, message number `n + 1` of a fresh window is
admitted exactly when `n < L` — so the `(L+1)`-th message is suppressed —
and the one-time warning fires exactly on the first suppressed message
(`n = L`), never on a later one: the flag set then keeps every subsequent
suppressed message silent. -/
theorem gateOutcome_spec (limit n : Nat) :
    (gateOutcome limit n).admitted = decide (n < limit) ∧
    (gateOutcome limit n).warned = decide (n = limit) := by
  unfold gateOutcome
  rw [gateState_eq]
  rcases Nat.lt_trichotomy n limit with h | h | h
  · rw [if_pos (Nat.le_of_lt h), gateIncoming_below h]
    constructor <;> simp <;> omega
  · subst h
    rw [if_pos (Nat.le_refl n), gateIncoming_at]
    constructor <;> simp
  · rw [if_neg (by omega : ¬ n ≤ limit), gateIncoming_after]
    constructor <;> simp <;> omega

theorem handleMessage_no_survivors (threshold limitN : Nat) (env : RunEnv)
    (db : Db) (h : survivorsAfterWait env db = []) :
    (handleMessage threshold limitN env db).sent = [] ∧
    (handleMessage threshold limitN env db).edited = [] ∧
    (handleMessage threshold limitN env db).reactions = [] ∧
    (handleMessage threshold limitN env db).failed = false ∧
    assistantTurns (handleMessage threshold limitN env db).conv =
      assistantTurns db.conv := by
  unfold handleMessage
  by_cases h1 : db.isIgnored = true
  · rw [if_pos h1]
    exact ⟨rfl, rfl, rfl, rfl, rfl⟩
  · rw [if_neg h1]
    by_cases h2 : batchOf db = []
    · rw [if_pos h2]
      exact ⟨rfl, rfl, rfl, rfl, rfl⟩
    · rw [if_neg h2, if_pos h]
      exact ⟨rfl, rfl, rfl, rfl, assistantTurns_foldl_user _ _⟩

theorem survivorsAfterWait_eq_nil (env : RunEnv) (db : Db)
    (h : ∀ m ∈ batchOf db, m.id ∈ env.markDuringWait) :
    survivorsAfterWait env db = [] := by
  unfold survivorsAfterWait
  rw [List.filter_eq_nil_iff]
  intro i hi
  rw [List.mem_map] at hi
  obtain ⟨m, hm, rfl⟩ := hi
  have hmark : m.id ∈ env.markDuringWait := h m hm
  have hnone : (getPendingMessages (pendingAfterWait env db)).find?
      (fun m' => m'.id = m.id) = none := by
    rw [List.find?_eq_none]
    intro x hx
    rw [getPendingMessages, List.mem_filter] at hx
    obtain ⟨hx1, hx2⟩ := hx
    rw [pendingAfterWait, markPendingMessagesAsProcessed, List.mem_map] at hx1
    obtain ⟨m0, _, rfl⟩ := hx1
    by_cases hc : m0.id ∈ env.markDuringWait
    · rw [if_pos hc] at hx2
      simp at hx2
    · rw [if_neg hc] at hx2 ⊢
      simp only [decide_eq_true_eq]
      intro hEq
      exact hc (hEq ▸ hmark)
  simp [hnone]

theorem deliverChunks_fail_length (env : RunEnv) (msgs : List String) :
    ∀ (j i : Nat), (deliverChunks env j msgs).2.2 = some i →
      (deliverChunks env j msgs).1.length + j ≤ i + 1 := by
  induction msgs with
  | nil =>
    intro j i h
    simp [deliverChunks] at h
  | cons msg rest ih =>
    intro j i h
    simp only [deliverChunks] at h ⊢
    split_ifs at h ⊢ with h1 h2 h3
    · simp at h ⊢
      omega
    · simp at h ⊢
      omega
    · simp only [List.length_cons] at h ⊢
      have := ih (j + 1) i h
      omega
    · simp at h ⊢
      omega
    · simp only [List.length_cons] at h ⊢
      have := ih (j + 1) i h
      omega

/-- C1 counterexample: cancellation lands after generation started (the
batch id is externally marked processed before delivery would begin), so
the surviving-id set is empty at the moment of delivery — yet the run still
sends its reply chunk, because the code checks survivors only before
generation, never again before delivering. -/
theorem survivors_recheck_counterexample :
    survivorsAtDelivery { envBase with markBeforeDeliver := [0] } db0 = [] ∧
    (handleMessage 50 20 { envBase with markBeforeDeliver := [0] } db0).sent ≠
      [] := by
  exact ⟨by decide, by decide⟩

/-- C1 (amended): the surviving-id check happens once, after the typing
wait and immediately before generation.  When that check finds no
survivors, no reply chunk is sent, nothing is edited, no reaction goes out,
the job succeeds, and no assistant turn is persisted.  (A cancellation that
lands after this check — e.g. during generation — does not prevent
delivery, per the counterexample.) -/
theorem survivors_checked_before_generation (threshold limitN : Nat)
    (env : RunEnv) (db : Db) (h : survivorsAfterWait env db = []) :
    (handleMessage threshold limitN env db).sent = [] ∧
    (handleMessage threshold limitN env db).edited = [] ∧
    (handleMessage threshold limitN env db).reactions = [] ∧
    (handleMessage threshold limitN env db).failed = false ∧
    assistantTurns (handleMessage threshold limitN env db).conv =
      assistantTurns db.conv :=
  handleMessage_no_survivors threshold limitN env db h

/-- Witness for C1 (amended): a run whose whole batch was cancelled during
the wait sends nothing. -/
theorem survivors_checked_before_generation_witness :
    survivorsAfterWait { envBase with markDuringWait := [0] } db0 = [] ∧
    (handleMessage 50 20 { envBase with markDuringWait := [0] } db0).sent = [] :=
  ⟨by decide,
   (survivors_checked_before_generation 50 20
      { envBase with markDuringWait := [0] } db0 (by decide)).1⟩

/-- C2 counterexample, two traces.  First: the whole batch is externally
marked processed during the wait; the run indeed replies nothing, but it
has already written the batch as user turns to the conversation — a side
effect the claim rules out.  Second: the external mark lands after the
pipeline's second pending read but still before generation begins; the
reconciliation misses it and a reply is sent. -/
theorem reconciliation_counterexample :
    ((handleMessage 50 20 { envBase with markDuringWait := [0] } db0).sent = [] ∧
     (handleMessage 50 20 { envBase with markDuringWait := [0] } db0).conv.messages ≠
       db0.conv.messages) ∧
    (handleMessage 50 20 { envBase with markBeforeGenerate := [0] } db0).sent ≠
      [] := by
  exact ⟨⟨by decide, by decide⟩, by decide⟩

/-- C2 (amended): when an external actor marks every message of the read
batch processed before the pipeline's second pending read (which happens
after the typing wait and before generation), the task sends no reply,
edits nothing, sends no reaction, succeeds, and persists no assistant
turn.  The batch's user turns, however, are written to the conversation
before the wait regardless of the cancellation. -/
theorem batch_cancelled_no_reply (threshold limitN : Nat) (env : RunEnv)
    (db : Db) (h : ∀ m ∈ batchOf db, m.id ∈ env.markDuringWait) :
    (handleMessage threshold limitN env db).sent = [] ∧
    (handleMessage threshold limitN env db).edited = [] ∧
    (handleMessage threshold limitN env db).reactions = [] ∧
    (handleMessage threshold limitN env db).failed = false ∧
    assistantTurns (handleMessage threshold limitN env db).conv =
      assistantTurns db.conv :=
  handleMessage_no_survivors threshold limitN env db
    (survivorsAfterWait_eq_nil env db h)

/-- Witness for C2 (amended). -/
theorem batch_cancelled_no_reply_witness :
    (∀ m ∈ batchOf db0, m.id ∈ [0]) ∧
    (handleMessage 50 20 { envBase with markDuringWait := [0] } db0).sent = [] ∧
    assistantTurns
      (handleMessage 50 20 { envBase with markDuringWait := [0] } db0).conv =
      assistantTurns db0.conv :=
  ⟨by decide,
   (batch_cancelled_no_reply 50 20 { envBase with markDuringWait := [0] } db0
      (by decide)).1,
   (batch_cancelled_no_reply 50 20 { envBase with markDuringWait := [0] } db0
      (by decide)).2.2.2.2⟩

/-- C3 counterexample: a two-chunk reply whose second chunk send fails.
The first chunk `"Раз."` was delivered, but the run persists no assistant
turn at all — not a turn containing the delivered chunks, as the claim
requires. -/
theorem failed_chunk_persists_nothing_counterexample :
    (handleMessage 50 20 envC3 db0).sent = ["Раз."] ∧
    (handleMessage 50 20 envC3 db0).failed = true ∧
    assistantTurns (handleMessage 50 20 envC3 db0).conv = [] := by
  exact ⟨by decide, by decide, by decide⟩

/-- C3 (amended): when delivering chunk `i` fails, the remaining chunks are
aborted (nothing beyond chunk `i` is sent) and the job throws; no assistant
turn is persisted — not even the chunks already delivered — and the task
marks no pending id processed (only the external marks touched the
store). -/
theorem chunk_failure_aborts (threshold limitN : Nat) (env : RunEnv)
    (db : Db) (i : Nat) (h1 : db.isIgnored = false)
    (h2 : batchOf db ≠ []) (h3 : survivorsAfterWait env db ≠ [])
    (h4 : (deliverChunks env 0 (chunksOf env)).2.2 = some i) :
    (handleMessage threshold limitN env db).failed = true ∧
    (handleMessage threshold limitN env db).sent =
      (deliverChunks env 0 (chunksOf env)).1 ∧
    (handleMessage threshold limitN env db).sent.length ≤ i + 1 ∧
    assistantTurns (handleMessage threshold limitN env db).conv =
      assistantTurns db.conv ∧
    (handleMessage threshold limitN env db).pending =
      pendingAtDelivery env db := by
  have hrw : handleMessage threshold limitN env db =
      { pending := pendingAtDelivery env db, conv := convAfterUserTurns db,
        sent := (deliverChunks env 0 (chunksOf env)).1,
        edited := (deliverChunks env 0 (chunksOf env)).2.1,
        reactions := [], failed := true, tag := .deliveryFailed } := by
    unfold handleMessage
    rw [if_neg (by simp [h1]), if_neg h2, if_neg h3,
      if_pos (by rw [h4]; rfl)]
  refine ⟨by rw [hrw], by rw [hrw], ?_,
    by rw [hrw]; exact assistantTurns_foldl_user _ _, by rw [hrw]⟩
  rw [hrw]
  have := deliverChunks_fail_length env (chunksOf env) 0 i h4
  simpa using this

/-- Witness for C3 (amended): the concrete failing two-chunk trace. -/
theorem chunk_failure_aborts_witness :
    (handleMessage 50 20 envC3 db0).failed = true ∧
    (handleMessage 50 20 envC3 db0).sent.length ≤ 2 :=
  ⟨(chunk_failure_aborts 50 20 envC3 db0 1 (by decide) (by decide) (by decide)
      (by decide)).1,
   (chunk_failure_aborts 50 20 envC3 db0 1 (by decide) (by decide) (by decide)
      (by decide)).2.2.1⟩
